import Mathlib

/-!
Verification of the working-hours calculation application core
(Working_hours_calculation_application.py) against its specification.

Times of day are embedded as minutes; a datetime anchored on a reference
date is embedded as minutes counted from the midnight of that reference
date, so one day is 1440 minutes and timedelta arithmetic becomes integer
arithmetic. Every duration the program manipulates is a whole number of
minutes (the widgets and the stored strings carry HH:MM only), so this
embedding is exact.
-/

namespace Worktime

/-- Loop body of normalize_monotonic (source lines 117-120): if the next
value is earlier than the last accepted value, add one day (1440 minutes). -/
def roll (prev t : Int) : Int :=
  if t < prev then t + 1440 else t

/-- Embedding of normalize_monotonic (source lines 113-121): walk the four
values, rolling each forward by one day when it is earlier than the
previously accepted value. -/
def normalize_monotonic (s b1 b2 e : Int) : Int × Int × Int × Int :=
  let n1 := roll s b1
  let n2 := roll n1 b2
  let n3 := roll n2 e
  (s, n1, n2, n3)

/-- Embedding of calc_duration (source lines 101-103):
(break start - start) + (end - break end). -/
def calc_duration (start bstart bend endv : Int) : Int :=
  (bstart - start) + (endv - bend)

/-- Embedding of MainWindow.round_duration (source lines 656-661). Python
floor division on integers is Int.fdiv. -/
def round_duration (total step : Int) : Int :=
  if step ≤ 1 then total
  else (total + Int.fdiv step 2).fdiv step * step

/-- Duration of a manual-entry record before rounding: normalization
followed by calc_duration (source lines 583-584 and 910-913). -/
def manual_duration (s b1 b2 e : Int) : Int :=
  match normalize_monotonic s b1 b2 e with
  | (n0, n1, n2, n3) => calc_duration n0 n1 n2 n3

/-- Worked minutes stored for a manual-entry record: normalize, apply the
interval formula, round (source lines 583-589 for on_register and lines
905-913 with 927-928 for the manual branch of recalc_month). -/
def manual_worked_minutes (s b1 b2 e step : Int) : Int :=
  round_duration (manual_duration s b1 b2 e) step

/-- Pre-rounding duration computed by on_punch_out (source lines 640-647):
clamp the end to the start when the clock went backwards, subtract the
fixed break, clamp at zero. -/
def punch_out_duration (start now fixedBreak : Int) : Int :=
  let tEnd := if now < start then start else now
  let d := tEnd - start - fixedBreak
  if d < 0 then 0 else d

/-- Worked minutes stored by on_punch_out (source lines 640-649). -/
def punch_out_minutes (start now fixedBreak step : Int) : Int :=
  round_duration (punch_out_duration start now fixedBreak) step

/-- Pre-rounding duration of the punch-derived branch of recalc_month
(source lines 919-926): add one day to the end when it is earlier than the
start, subtract the fixed break, clamp at zero. -/
def recalc_punch_duration (start endv fixedBreak : Int) : Int :=
  let e2 := if endv < start then endv + 1440 else endv
  let d := e2 - start - fixedBreak
  if d < 0 then 0 else d

/-- Modelled from the spec, section 4.2: the punch-derived formula exactly
as the specification words it - elapsed is end minus start with one day
added when end < start, and worked is max(0, elapsed - fixed break). Kept
separate so the code can be compared against the specification text. -/
def spec_punch_worked (start endv fixedBreak : Int) : Int :=
  max 0 ((if endv < start then endv + 1440 else endv) - start - fixedBreak)

/-- Predicate: a normalized 4-tuple is non-decreasing. -/
def monotone4 (t : Int × Int × Int × Int) : Prop :=
  t.1 ≤ t.2.1 ∧ t.2.1 ≤ t.2.2.1 ∧ t.2.2.1 ≤ t.2.2.2

instance (t : Int × Int × Int × Int) : Decidable (monotone4 t) := by
  unfold monotone4; infer_instance

theorem le_roll {prev t : Int} (h : prev ≤ t + 1440) : prev ≤ roll prev t := by
  unfold roll; split <;> omega

theorem round_duration_nonneg {total : Int} (step : Int) (h : 0 ≤ total) :
    0 ≤ round_duration total step := by
  unfold round_duration
  split
  · exact h
  · rename_i hs
    have h3 : (0:Int) ≤ (total + Int.fdiv step 2).fdiv step :=
      Int.fdiv_nonneg (by have := Int.fdiv_nonneg (a := step) (b := 2) (by omega) (by omega); omega)
        (by omega)
    exact mul_nonneg h3 (by omega)

/-- C1 counterexample: with start 23:00, break start 01:00, break end 00:30
and end 06:00 - four valid time-of-day values - normalize_monotonic does
not return a non-decreasing sequence: the single one-day rollover leaves
break end (day 1, 00:30) strictly before break start (day 1, 01:00). -/
theorem normalize_monotonic_counterexample :
    (0 ≤ (1380:Int) ∧ (1380:Int) < 1440) ∧ (0 ≤ (60:Int) ∧ (60:Int) < 1440) ∧
    (0 ≤ (30:Int) ∧ (30:Int) < 1440) ∧ (0 ≤ (360:Int) ∧ (360:Int) < 1440) ∧
    normalize_monotonic 1380 60 30 360 = (1380, 1500, 1470, 1800) ∧
    ¬ monotone4 (normalize_monotonic 1380 60 30 360) := by
  decide

/-- C1 (amended): normalize_monotonic returns a non-decreasing sequence
provided each input value is at most one day earlier than its already
normalized predecessor. For time-of-day inputs this always holds at the
first pair, but a later value can lag the running value by more than one
day, and then the single one-day rollover is insufficient and the output
decreases at that position. -/
theorem normalize_monotonic_monotone_of_bounded_gap
    (s b1 b2 e : Int) (hs : 0 ≤ s ∧ s < 1440) (hb1 : 0 ≤ b1 ∧ b1 < 1440)
    (h2 : (normalize_monotonic s b1 b2 e).2.1 ≤ b2 + 1440)
    (h3 : (normalize_monotonic s b1 b2 e).2.2.1 ≤ e + 1440) :
    monotone4 (normalize_monotonic s b1 b2 e) := by
  have h2' : roll s b1 ≤ b2 + 1440 := h2
  have h3' : roll (roll s b1) b2 ≤ e + 1440 := h3
  show s ≤ roll s b1 ∧ roll s b1 ≤ roll (roll s b1) b2 ∧
    roll (roll s b1) b2 ≤ roll (roll (roll s b1) b2) e
  exact ⟨le_roll (by omega), le_roll h2', le_roll h3'⟩

/-- C1 witness: the amended theorem applied at the concrete spec example
22:00, 23:00, 23:30, 06:00. -/
theorem normalize_monotonic_monotone_witness :
    monotone4 (normalize_monotonic 1320 1380 1410 360) :=
  normalize_monotonic_monotone_of_bounded_gap 1320 1380 1410 360
    (by decide) (by decide) (by decide) (by decide)

/-- C6: the manual-entry duration before rounding is
(bstart - start) + (end - bend) over the normalized times, with no
clamping (the last conjunct shows a negative duration propagating), and
the two concrete spec examples hold: 09:00/12:00/13:00/18:00 with rounding
step 1 gives 480 minutes and 22:00/23:00/23:30/06:00 gives 450 minutes. -/
theorem manual_duration_formula_and_examples :
    (∀ s b1 b2 e : Int,
      manual_duration s b1 b2 e =
        ((normalize_monotonic s b1 b2 e).2.1 - (normalize_monotonic s b1 b2 e).1) +
        ((normalize_monotonic s b1 b2 e).2.2.2 - (normalize_monotonic s b1 b2 e).2.2.1)) ∧
    manual_worked_minutes 540 720 780 1080 1 = 480 ∧
    manual_worked_minutes 1320 1380 1410 360 1 = 450 ∧
    manual_duration 1380 60 1360 60 = -1180 :=
  ⟨fun s b1 b2 e => rfl, by decide, by decide, by decide⟩

/-- C7: the rounding policy returns the input unchanged when step ≤ 1 and
otherwise returns floor((x + step/2) / step) * step in integer arithmetic,
which is a multiple of step at most half a step above x; in particular 485
at step 15 rounds to 480 and step 1 is the identity. -/
theorem round_duration_policy :
    (∀ x step : Int, step ≤ 1 → round_duration x step = x) ∧
    (∀ x : Int, round_duration x 1 = x) ∧
    round_duration 485 15 = 480 ∧
    (∀ x step : Int, 2 ≤ step →
      round_duration x step = (x + Int.fdiv step 2).fdiv step * step ∧
      step ∣ round_duration x step ∧
      round_duration x step ≤ x + Int.fdiv step 2 ∧
      x + Int.fdiv step 2 < round_duration x step + step) := by
  refine ⟨fun x step h => by simp [round_duration, h],
          fun x => by simp [round_duration],
          by decide,
          fun x step h => ?_⟩
  have hne : ¬ step ≤ 1 := by omega
  have hform : round_duration x step = (x + Int.fdiv step 2).fdiv step * step := by
    simp [round_duration, hne]
  have hpos : (0:Int) < step := by omega
  have h1 := Int.ediv_add_emod (x + Int.fdiv step 2) step
  have h2 := Int.emod_nonneg (x + Int.fdiv step 2) (by omega : step ≠ 0)
  have h3 := Int.emod_lt_of_pos (x + Int.fdiv step 2) hpos
  refine ⟨hform, ?_, ?_, ?_⟩
  · rw [hform, Int.fdiv_eq_ediv _ (le_of_lt hpos)]
    exact dvd_mul_left step _
  · rw [hform, Int.fdiv_eq_ediv _ (le_of_lt hpos), mul_comm]
    linarith
  · rw [hform, Int.fdiv_eq_ediv _ (le_of_lt hpos), mul_comm]
    linarith

/-- C7 witness: the policy theorem applied at step 0, and at 485 with step
15 where the divisibility and bound conjuncts are instantiated. -/
theorem round_duration_policy_witness :
    round_duration 7 0 = 7 ∧
    round_duration 485 15 = (485 + Int.fdiv 15 2).fdiv 15 * 15 ∧
    (15:Int) ∣ round_duration 485 15 :=
  ⟨round_duration_policy.1 7 0 (by decide),
   (round_duration_policy.2.2.2 485 15 (by decide)).1,
   (round_duration_policy.2.2.2 485 15 (by decide)).2.1⟩

/-- C4 counterexample: at start 10:00 with the clock reading 09:00 at
punch-out time and a 60 minute fixed break, on_punch_out clamps the end to
the start and stores 0 minutes, while the formula of the claim (add one
day to end when end < start, then subtract the break) gives 1320 minutes:
punch-out does not implement the claimed formula. -/
theorem punch_out_clamps_counterexample :
    punch_out_duration 600 540 60 = 0 ∧
    spec_punch_worked 600 540 60 = 1320 ∧
    punch_out_duration 600 540 60 ≠ spec_punch_worked 600 540 60 := by
  decide

/-- C4 (amended): the punch-derived branch of recalc_month computes
exactly the claimed formula (one day added to end when end < start, then
worked = max(0, elapsed - fixed break)), while on_punch_out instead clamps
the end to the start when the clock reads earlier than the start - it
never adds a day - and then subtracts the fixed break and clamps at zero;
both results are rounded afterwards. -/
theorem punch_duration_formulas :
    (∀ s e brk : Int, recalc_punch_duration s e brk = spec_punch_worked s e brk) ∧
    (∀ s now brk : Int, punch_out_duration s now brk = max 0 (max now s - s - brk)) ∧
    (∀ s now brk step : Int,
      punch_out_minutes s now brk step =
        round_duration (punch_out_duration s now brk) step) := by
  refine ⟨fun s e brk => ?_, fun s now brk => ?_, fun s now brk step => rfl⟩
  · simp only [recalc_punch_duration, spec_punch_worked, max_def]
    split_ifs <;> omega
  · simp only [punch_out_duration, max_def]
    split_ifs <;> omega

/-!
Data model. A time-of-day string is embedded by its observable behavior:
the program only ever asks whether the string is empty (Python truthiness)
and what parsing it as HH:MM yields, so a string is represented by that
classification. valid h m stands for a non-empty string of two
colon-separated integer fields h and m; parsing additionally checks
h < 24 and m < 60 (the datetime constructor), so a valid value outside
those bounds behaves like any other unparsable non-empty string.
-/

inductive TimeStr where
  | empty : TimeStr
  | valid : Nat → Nat → TimeStr
  | invalid : TimeStr
deriving DecidableEq, Repr

/-- Python truthiness of the underlying string: only the empty string is
falsy. -/
def TimeStr.isSet : TimeStr → Bool
  | .empty => false
  | _ => true

/-- Parse a time-of-day string into minutes (the to_dt helpers at source
lines 576-577 and 907-909, and the time half of dt_on at lines 106-110):
two integer fields, with the datetime constructor rejecting hours above 23
and minutes above 59. Returns none exactly when the Python code raises. -/
def TimeStr.parseTime : TimeStr → Option Int
  | .empty => none
  | .invalid => none
  | .valid h m => if h < 24 && m < 60 then some ((h : Int) * 60 + m) else none

/-- Embedding of DayRecord (source lines 83-93). The field endT models the
source field named end, a reserved word in Lean. -/
structure DayRecord where
  start : TimeStr
  break_start : TimeStr
  break_end : TimeStr
  endT : TimeStr
  location : String
  worked_minutes : Int
  project : String
  memo : String
deriving DecidableEq, Repr

/-- One raw JSON record as read by WorkStore.load (source lines 196-206):
every field optional, with missing string fields defaulting to the empty
string and a missing worked_minutes to 0. A file whose worked_minutes is
not convertible by int() makes the whole parse raise and is represented
at the FileText level as malformed. -/
structure RawRecord where
  start : Option TimeStr
  break_start : Option TimeStr
  break_end : Option TimeStr
  endT : Option TimeStr
  location : Option String
  worked_minutes : Option Int
  project : Option String
  memo : Option String
deriving DecidableEq, Repr

/-- Field extraction of WorkStore.load (source lines 197-206). -/
def parseRecord (r : RawRecord) : DayRecord :=
  { start := r.start.getD .empty
    break_start := r.break_start.getD .empty
    break_end := r.break_end.getD .empty
    endT := r.endT.getD .empty
    location := r.location.getD ""
    worked_minutes := r.worked_minutes.getD 0
    project := r.project.getD ""
    memo := r.memo.getD "" }

/-- Content of a data file as seen by WorkStore.load: either text on which
json.loads or the subsequent field extraction raises (malformed), or a
JSON object of the expected shape. -/
inductive FileText where
  | malformed : FileText
  | wellFormed : List (String × RawRecord) → FileText
deriving DecidableEq

/-- Embedding of the local helper _parse_text (source lines 193-207):
fails on malformed text, otherwise extracts every record with defaults. -/
def _parse_text : FileText → Option (List (String × DayRecord))
  | .malformed => none
  | .wellFormed l => some (l.map fun kv => (kv.1, parseRecord kv.2))

/-- Backup half of WorkStore.load (source lines 216-225): try the backup
file when present, fall back to the empty map. -/
def load_bak : Option FileText → List (String × DayRecord)
  | some t =>
    match _parse_text t with
    | some m => m
    | none => []
  | none => []

/-- Embedding of WorkStore.load (source lines 192-225): the primary file
is tried first when it exists; on absence or parse failure the backup is
tried; when both fail the empty map is returned. The function is total:
every exception of the Python code is caught inside load. -/
def load (primaryF bakF : Option FileText) : List (String × DayRecord) :=
  match primaryF with
  | some t =>
    match _parse_text t with
    | some m => m
    | none => load_bak bakF
  | none => load_bak bakF

/-- Predicate: a file slot that yields no parse (missing file or
unparsable content). -/
def badFile : Option FileText → Prop
  | none => True
  | some t => _parse_text t = none

instance : (f : Option FileText) → Decidable (badFile f)
  | none => .isTrue trivial
  | some t => inferInstanceAs (Decidable (_parse_text t = none))

/-- Record created or reset by on_punch_in (source lines 617-623): the
fresh-record branch and the reset branch produce the same field values -
start is the current time, break and end fields are cleared,
worked_minutes is 0 and location, project, memo are overwritten. -/
def punch_in_record (nowT : TimeStr) (loc pj mm : String) : DayRecord :=
  { start := nowT, break_start := .empty, break_end := .empty, endT := .empty,
    location := loc, worked_minutes := 0, project := pj, memo := mm }

/-- Sample raw record used by concrete witnesses. -/
def sampleRaw : RawRecord :=
  ⟨none, none, none, none, none, some 480, none, none⟩

theorem manual_duration_eq (s b1 b2 e : Int) :
    manual_duration s b1 b2 e =
      ((normalize_monotonic s b1 b2 e).2.1 - (normalize_monotonic s b1 b2 e).1) +
      ((normalize_monotonic s b1 b2 e).2.2.2 - (normalize_monotonic s b1 b2 e).2.2.1) := rfl

/-- C5: load never raises (it is a total function of the two file slots)
and implements the fallback protocol: a parsable primary is returned as
parsed; with an unusable primary a parsable backup is recovered exactly;
with both unusable the empty map is returned. -/
theorem load_fallback_protocol :
    (∀ t b m, _parse_text t = some m → load (some t) b = m) ∧
    (∀ p b m, badFile p → _parse_text b = some m → load p (some b) = m) ∧
    (∀ p b, badFile p → badFile b → load p b = []) := by
  refine ⟨fun t b m h => by simp [load, h], fun p b m hp hb => ?_, fun p b hp hb => ?_⟩
  · cases p with
    | none => simp [load, load_bak, hb]
    | some t =>
      have ht : _parse_text t = none := hp
      simp [load, load_bak, ht, hb]
  · cases p with
    | none =>
      cases b with
      | none => simp [load, load_bak]
      | some tb =>
        have htb : _parse_text tb = none := hb
        simp [load, load_bak, htb]
    | some t =>
      have ht : _parse_text t = none := hp
      cases b with
      | none => simp [load, load_bak, ht]
      | some tb =>
        have htb : _parse_text tb = none := hb
        simp [load, load_bak, ht, htb]

/-- C5 witness: a corrupted primary with a valid backup recovers the
backup content exactly, and two corrupted files yield the empty map. -/
theorem load_fallback_witness :
    load (some .malformed) (some (.wellFormed [("2024-01-06", sampleRaw)])) =
      [("2024-01-06", parseRecord sampleRaw)] ∧
    load (some .malformed) (some .malformed) = [] :=
  ⟨load_fallback_protocol.2.1 (some .malformed)
      (.wellFormed [("2024-01-06", sampleRaw)])
      [("2024-01-06", parseRecord sampleRaw)] rfl rfl,
   load_fallback_protocol.2.2 (some .malformed) (some .malformed) rfl rfl⟩

/-- C2 counterexample: manual registration at start 23:00, break start
01:00, break end 22:40, end 01:00 - four valid time-of-day values, with
rounding step 1 - stores worked_minutes = -1180, a negative value:
registration does not keep the non-negativity invariant for every input. -/
theorem worked_minutes_negative_on_register :
    manual_worked_minutes 1380 60 1360 60 1 = -1180 ∧
    manual_worked_minutes 1380 60 1360 60 1 < 0 := by
  decide

/-- C2 (amended): punch-out and the punch-derived branch of recalc_month
always store a non-negative worked_minutes, and punch-in stores zero; the
manual computation (registration and the manual branch of recalc_month)
stores a non-negative value whenever the normalized sequence is
non-decreasing but can store a negative value otherwise; load keeps
whatever integer the file holds, preserving non-negativity exactly when
the stored value is non-negative. -/
theorem worked_minutes_nonneg_amended :
    (∀ s now brk step : Int, 0 ≤ punch_out_minutes s now brk step) ∧
    (∀ s e brk step : Int, 0 ≤ round_duration (recalc_punch_duration s e brk) step) ∧
    (∀ nowT loc pj mm, (punch_in_record nowT loc pj mm).worked_minutes = 0) ∧
    (∀ s b1 b2 e step : Int, monotone4 (normalize_monotonic s b1 b2 e) →
      0 ≤ manual_worked_minutes s b1 b2 e step) ∧
    (∀ r : RawRecord, 0 ≤ r.worked_minutes.getD 0 →
      0 ≤ (parseRecord r).worked_minutes) := by
  refine ⟨fun s now brk step => ?_, fun s e brk step => ?_, fun nowT loc pj mm => rfl,
          fun s b1 b2 e step h => ?_, fun r h => h⟩
  · apply round_duration_nonneg
    simp only [punch_out_duration]
    split_ifs <;> omega
  · apply round_duration_nonneg
    simp only [recalc_punch_duration]
    split_ifs <;> omega
  · apply round_duration_nonneg
    rw [manual_duration_eq]
    obtain ⟨hA, hB, hC⟩ := h
    omega

/-- C2 witness: the amended theorem at concrete inputs - a punch-out from
09:00 to 18:00 with a 60 minute break at step 15, a manual registration
09:00/12:00/13:00/18:00 at step 1, and a loaded record storing 480. -/
theorem worked_minutes_nonneg_witness :
    0 ≤ punch_out_minutes 540 1080 60 15 ∧
    0 ≤ manual_worked_minutes 540 720 780 1080 1 ∧
    0 ≤ (parseRecord sampleRaw).worked_minutes :=
  ⟨worked_minutes_nonneg_amended.1 540 1080 60 15,
   worked_minutes_nonneg_amended.2.2.2.1 540 720 780 1080 1 (by decide),
   worked_minutes_nonneg_amended.2.2.2.2 sampleRaw (by decide)⟩

/-- Month key prefix built by recalc_month (source line 900): the Python
format string produces the year, a dash, and the zero-padded month. -/
def month_pfx (year month : Nat) : String :=
  toString year ++ "-" ++ (if month < 10 then "0" ++ toString month else toString month)

/-- Textual prefix test (Python str.startswith at source line 902),
expressed on the character lists underlying the strings so that concrete
instances evaluate by kernel reduction. -/
def starts_with (k p : String) : Bool := p.data.isPrefixOf k.data

/-- Recomputation of one record by recalc_month (source lines 904-928):
returns the new worked minutes, or none when the record is skipped -
because it is punch-shaped and missing start or end (lines 916-918), or
because a parse inside the try block raises (lines 931-933). The argument
dv is the outcome of parsing this record's date key inside dt_on (a
library call, abstracted as a predicate on keys); the date value itself
cancels in the subtraction, so only its parsability matters. -/
def recalcRecord (dv : Bool) (fixedBreak roundStep : Int) (rec : DayRecord) : Option Int :=
  if rec.break_start.isSet && rec.break_end.isSet then
    match rec.start.parseTime, rec.break_start.parseTime,
          rec.break_end.parseTime, rec.endT.parseTime with
    | some s, some b1, some b2, some e => some (manual_worked_minutes s b1 b2 e roundStep)
    | _, _, _, _ => none
  else
    if !rec.start.isSet || !rec.endT.isSet then none
    else if !dv then none
    else
      match rec.start.parseTime, rec.endT.parseTime with
      | some s, some e => some (round_duration (recalc_punch_duration s e fixedBreak) roundStep)
      | _, _ => none

/-- Outcome of one iteration of the recalc_month loop. -/
inductive ROutcome where
  | untouched : ROutcome
  | unchanged : ROutcome
  | changed : ROutcome
  | skipped : ROutcome
deriving DecidableEq, Repr

/-- One iteration of the recalc_month loop (source lines 901-933) on a
key-record pair: records outside the month prefix are not touched; inside
the month the record is recomputed and its worked_minutes replaced only
when the recomputed value differs (source lines 929-930). -/
def recalcEntry (dv : String → Bool) (fixedBreak roundStep : Int) (pfx : String)
    (kv : String × DayRecord) : (String × DayRecord) × ROutcome :=
  if starts_with kv.1 pfx then
    match recalcRecord (dv kv.1) fixedBreak roundStep kv.2 with
    | none => (kv, .skipped)
    | some n =>
      if n = kv.2.worked_minutes then (kv, .unchanged)
      else ((kv.1, { kv.2 with worked_minutes := n }), .changed)
  else (kv, .untouched)

/-- Embedding of MainWindow.recalc_month (source lines 899-933): the map
with every record of the target month recomputed, together with the
changed and skipped counters. The iteration order of the source (sorted
keys) does not affect the result map or the counters, so the list is
processed in its given order. -/
def recalc_month (dv : String → Bool) (fixedBreak roundStep : Int)
    (year month : Nat) (data : List (String × DayRecord)) :
    List (String × DayRecord) × Nat × Nat :=
  let es := data.map (recalcEntry dv fixedBreak roundStep (month_pfx year month))
  (es.map Prod.fst,
   es.countP (fun x => decide (x.2 = ROutcome.changed)),
   es.countP (fun x => decide (x.2 = ROutcome.skipped)))

theorem recalcRecord_worked_irrel (dv : Bool) (fb rs n : Int) (r : DayRecord) :
    recalcRecord dv fb rs { r with worked_minutes := n } = recalcRecord dv fb rs r := by
  cases r; rfl

theorem recalcEntry_stable (dv : String → Bool) (fb rs : Int) (pfx : String)
    (kv : String × DayRecord) :
    (recalcEntry dv fb rs pfx ((recalcEntry dv fb rs pfx kv).1)).2 ≠ ROutcome.changed := by
  by_cases hp : starts_with kv.1 pfx = true
  · cases hr : recalcRecord (dv kv.1) fb rs kv.2 with
    | none => simp [recalcEntry, hp, hr]
    | some n =>
      by_cases hn : n = kv.2.worked_minutes
      · simp [recalcEntry, hp, hr, hn]
      · simp [recalcEntry, hp, hr, hn, recalcRecord_worked_irrel]
  · simp [recalcEntry, hp]

/-- C8: recalc_month is idempotent - running it a second time on its own
output with the same rule parameters (rounding step, fixed break) and the
same month reports zero changed records, for every record map and every
date-key parsing outcome. -/
theorem recalc_month_idempotent (dv : String → Bool) (fb rs : Int) (y m : Nat)
    (data : List (String × DayRecord)) :
    (recalc_month dv fb rs y m (recalc_month dv fb rs y m data).1).2.1 = 0 := by
  simp only [recalc_month, List.map_map, List.countP_map]
  rw [List.countP_eq_zero]
  intro kv hkv
  simp only [Function.comp_apply, decide_eq_true_eq]
  exact recalcEntry_stable dv fb rs (month_pfx y m) kv

/-- C9: a record of the target month that recalc_month cannot recompute -
in particular one that is punch-shaped (break fields not both set) and
missing start or end - is counted skipped and left unmodified, and its
presence never aborts the batch: every other record is mapped exactly as
it would be without it, the changed count is unaffected and the skipped
count grows by one. The per-record try/except of the source corresponds
to the totality of recalcEntry. -/
theorem recalc_month_skip_isolation :
    (∀ (dvb : Bool) (fb rs : Int) (r : DayRecord),
      (r.break_start.isSet && r.break_end.isSet) = false →
      (r.start.isSet = false ∨ r.endT.isSet = false) →
      recalcRecord dvb fb rs r = none) ∧
    (∀ (dv : String → Bool) (fb rs : Int) (y m : Nat)
      (l1 l2 : List (String × DayRecord)) (k : String) (r : DayRecord),
      starts_with k (month_pfx y m) = true →
      recalcRecord (dv k) fb rs r = none →
      (recalc_month dv fb rs y m (l1 ++ (k, r) :: l2)).1 =
        (recalc_month dv fb rs y m l1).1 ++ (k, r) :: (recalc_month dv fb rs y m l2).1 ∧
      (recalc_month dv fb rs y m (l1 ++ (k, r) :: l2)).2.1 =
        (recalc_month dv fb rs y m (l1 ++ l2)).2.1 ∧
      (recalc_month dv fb rs y m (l1 ++ (k, r) :: l2)).2.2 =
        (recalc_month dv fb rs y m (l1 ++ l2)).2.2 + 1) := by
  constructor
  · intro dvb fb rs r h1 h2
    rcases h2 with h | h <;> simp [recalcRecord, h1, h]
  · intro dv fb rs y m l1 l2 k r hk hr
    refine ⟨?_, ?_, ?_⟩ <;>
      simp [recalc_month, recalcEntry, hk, hr, List.countP_append, List.countP_cons]
    all_goals omega

/-- C9 witness: a punch-shaped record with start 09:00 and no end, keyed
inside 2024-01, is skipped without disturbing an otherwise empty batch. -/
theorem recalc_month_skip_isolation_witness :
    recalcRecord true 60 1 (punch_in_record (.valid 9 0) "office" "" "") = none ∧
    (recalc_month (fun _ => true) 60 1 2024 1
        ([] ++ ("2024-01-06", punch_in_record (.valid 9 0) "office" "" "") :: [])).2.2 =
      (recalc_month (fun _ => true) 60 1 2024 1 ([] ++ [])).2.2 + 1 :=
  ⟨recalc_month_skip_isolation.1 true 60 1 _ (by decide) (by decide),
   (recalc_month_skip_isolation.2 (fun _ => true) 60 1 2024 1 [] []
      "2024-01-06" (punch_in_record (.valid 9 0) "office" "" "")
      (by decide) (recalc_month_skip_isolation.1 true 60 1 _ (by decide) (by decide))).2.2⟩

theorem recalcEntry_frame (dv : String → Bool) (fb rs : Int) (pfx : String)
    (kv : String × DayRecord) :
    ((recalcEntry dv fb rs pfx kv).1).1 = kv.1 ∧
    ((recalcEntry dv fb rs pfx kv).1).2.start = kv.2.start ∧
    ((recalcEntry dv fb rs pfx kv).1).2.break_start = kv.2.break_start ∧
    ((recalcEntry dv fb rs pfx kv).1).2.break_end = kv.2.break_end ∧
    ((recalcEntry dv fb rs pfx kv).1).2.endT = kv.2.endT ∧
    ((recalcEntry dv fb rs pfx kv).1).2.location = kv.2.location ∧
    ((recalcEntry dv fb rs pfx kv).1).2.project = kv.2.project ∧
    ((recalcEntry dv fb rs pfx kv).1).2.memo = kv.2.memo ∧
    (starts_with kv.1 pfx = false → (recalcEntry dv fb rs pfx kv).1 = kv) := by
  by_cases hp : starts_with kv.1 pfx = true
  · cases hr : recalcRecord (dv kv.1) fb rs kv.2 with
    | none => simp [recalcEntry, hp, hr]
    | some n =>
      by_cases hn : n = kv.2.worked_minutes
      · simp [recalcEntry, hp, hr, hn]
      · simp [recalcEntry, hp, hr, hn]
  · simp [recalcEntry, hp]

/-- C10: recalc_month mutates only worked_minutes - the output map has
the same date keys in the same positions, every record keeps its start,
break, end, location, project and memo fields, and every entry whose key
lacks the target month prefix is entirely unchanged. -/
theorem recalc_month_frame (dv : String → Bool) (fb rs : Int) (y m : Nat)
    (data : List (String × DayRecord)) :
    (recalc_month dv fb rs y m data).1.map Prod.fst = data.map Prod.fst ∧
    List.Forall₂ (fun kv kv' : String × DayRecord =>
        kv'.1 = kv.1 ∧ kv'.2.start = kv.2.start ∧ kv'.2.break_start = kv.2.break_start ∧
        kv'.2.break_end = kv.2.break_end ∧ kv'.2.endT = kv.2.endT ∧
        kv'.2.location = kv.2.location ∧ kv'.2.project = kv.2.project ∧
        kv'.2.memo = kv.2.memo ∧
        (starts_with kv.1 (month_pfx y m) = false → kv' = kv))
      data (recalc_month dv fb rs y m data).1 := by
  have hout : (recalc_month dv fb rs y m data).1 =
      data.map (fun kv => (recalcEntry dv fb rs (month_pfx y m) kv).1) := by
    simp [recalc_month, List.map_map]
  constructor
  · rw [hout, List.map_map]
    apply List.map_congr_left
    intro a ha
    exact (recalcEntry_frame dv fb rs (month_pfx y m) a).1
  · rw [hout, List.forall₂_map_right_iff]
    rw [List.forall₂_same]
    intro kv hkv
    exact recalcEntry_frame dv fb rs (month_pfx y m) kv

/-- C10 witness: the frame theorem at a concrete one-record map. -/
theorem recalc_month_frame_witness :
    ((recalc_month (fun _ => true) 60 15 2024 1
        [("2024-01-06", punch_in_record (.valid 9 0) "office" "" "")]).1.map Prod.fst) =
      [("2024-01-06", punch_in_record (.valid 9 0) "office" "" "")].map Prod.fst :=
  (recalc_month_frame (fun _ => true) 60 15 2024 1
    [("2024-01-06", punch_in_record (.valid 9 0) "office" "" "")]).1

/-!
Persistence model for WorkStore.save (source lines 227-266). The file
system visible to save is the triple of the primary path, the backup path
(suffix .bak) and the temporary path (suffix .tmp); file contents are
abstract. save is a function of an optional failure point: the operation
named by the failure point raises when it executes. Building the
serializable dictionary (lines 229-240) is pure in-memory work preceding
every file operation; json.dump into the already opened temporary file is
the writeTmp step.
-/

/-- Content of the temporary file: fully written, or cut short because
json.dump raised after open had already created or truncated the file. -/
inductive TmpFile (α : Type) where
  | corrupt : TmpFile α
  | full : α → TmpFile α
deriving DecidableEq

/-- The three file slots touched by the save protocol. -/
structure Fs (α : Type) where
  primary : Option α
  bak : Option α
  tmp : Option (TmpFile α)
deriving DecidableEq

/-- Operations of WorkStore.save that can raise. bakUnlink and bakReplace
are the two statements of the backup try block (source lines 245-251,
exceptions swallowed); writeTmp is json.dump into the opened temporary
file (line 259); fsyncTmp is flush plus fsync (line 260). The final
os.replace (line 266) either runs after every earlier step succeeded or
is never reached. -/
inductive FailPoint where
  | bakUnlink : FailPoint
  | bakReplace : FailPoint
  | writeTmp : FailPoint
  | fsyncTmp : FailPoint
deriving DecidableEq

/-- Result of a save: ok when os.replace ran, error when an uncaught
exception aborted the save; both carry the file system left behind. -/
inductive SaveResult (α : Type) where
  | ok : Fs α → SaveResult α
  | error : Fs α → SaveResult α
deriving DecidableEq

/-- File system left behind by a save attempt. -/
def SaveResult.state {α : Type} : SaveResult α → Fs α
  | .ok fs => fs
  | .error fs => fs

/-- Whether the save ran to completion. -/
def SaveResult.isOk {α : Type} : SaveResult α → Bool
  | .ok _ => true
  | .error _ => false

/-- Embedding of WorkStore.save (source lines 227-266) with an optional
failure point fp: the named operation raises if it executes. Order as in
the source: move the primary to the backup slot (best effort, exceptions
swallowed; the block only runs when a primary exists, and the unlink
only executes when a backup exists - a failure at the replace statement
happens after the stale backup was already unlinked), then open and write
the temporary file, fsync it, and atomically replace the primary path
with it. -/
def save {α : Type} (fs : Fs α) (new : α) (fp : Option FailPoint) : SaveResult α :=
  let fs1 : Fs α :=
    if fs.primary.isSome then
      if fp = some .bakUnlink ∧ fs.bak.isSome then fs
      else if fp = some .bakReplace then { fs with bak := none }
      else { fs with primary := none, bak := fs.primary }
    else fs
  if fp = some .writeTmp then .error { fs1 with tmp := some .corrupt }
  else if fp = some .fsyncTmp then .error { fs1 with tmp := some (.full new) }
  else .ok { primary := some new, bak := fs1.bak, tmp := none }

/-- C3 counterexample: with an existing primary file (content 0), no
backup and no leftover temporary file, a failure while writing the
temporary file aborts the save but does not leave the pre-existing
primary at the primary path: by then the primary has already been moved
to the backup slot, contradicting the claim that any failure before the
final rename leaves it untouched. -/
theorem save_write_failure_moves_primary :
    save (α := Nat) ⟨some 0, none, none⟩ 1 (some .writeTmp) =
      .error ⟨none, some 0, some .corrupt⟩ ∧
    (save (α := Nat) ⟨some 0, none, none⟩ 1 (some .writeTmp)).state.primary ≠ some 0 := by
  decide

/-- C3 (amended): only failures at the write or the fsync of the
temporary file abort the save, and then the primary path is left empty -
an existing primary has already been moved to the backup slot by the
preceding backup move, so the old content survives at the backup path
rather than at the primary path. A failure during the backup move itself
is swallowed and the save runs to completion, and every completed save
publishes the new content at the primary path through the final atomic
rename. -/
theorem save_failure_semantics {α : Type} (fs : Fs α) (new : α) :
    ((save fs new (some .writeTmp)).isOk = false ∧
      (save fs new (some .writeTmp)).state.primary = none ∧
      (fs.primary.isSome → (save fs new (some .writeTmp)).state.bak = fs.primary)) ∧
    ((save fs new (some .fsyncTmp)).isOk = false ∧
      (save fs new (some .fsyncTmp)).state.primary = none ∧
      (fs.primary.isSome → (save fs new (some .fsyncTmp)).state.bak = fs.primary)) ∧
    ((save fs new (some .bakUnlink)).isOk = true ∧
      (save fs new (some .bakUnlink)).state.primary = some new) ∧
    ((save fs new (some .bakReplace)).isOk = true ∧
      (save fs new (some .bakReplace)).state.primary = some new) ∧
    ((save fs new none).isOk = true ∧
      (save fs new none).state.primary = some new ∧
      (fs.primary.isSome → (save fs new none).state.bak = fs.primary)) := by
  obtain ⟨p, b, t⟩ := fs
  refine ⟨⟨?_, ?_, ?_⟩, ⟨?_, ?_, ?_⟩, ⟨?_, ?_⟩, ⟨?_, ?_⟩, ?_, ?_, ?_⟩ <;>
    cases p <;> cases b <;>
    simp [save, SaveResult.isOk, SaveResult.state]

/-- C3 witness: the amended theorem at a concrete file system holding
content 0 at the primary path: an fsync failure leaves the old content at
the backup path, and a failure-free save publishes the new content 1. -/
theorem save_failure_semantics_witness :
    (save (α := Nat) ⟨some 0, none, none⟩ 1 (some .fsyncTmp)).state.bak = some 0 ∧
    (save (α := Nat) ⟨some 0, none, none⟩ 1 none).state.primary = some 1 :=
  ⟨(save_failure_semantics (α := Nat) ⟨some 0, none, none⟩ 1).2.1.2.2 rfl,
   (save_failure_semantics (α := Nat) ⟨some 0, none, none⟩ 1).2.2.2.2.2.1⟩

end Worktime
